import Mathlib

/-!
A shallow embedding of `src/lib/colord/cd-icc.c` (the colord in-memory ICC
profile model).  Pure C helpers become Lean functions on lists of bytes
(`List Nat`, each element a byte value) and lists of characters (`CStr`)
for NUL-terminated locale keys; the stateful `CdIcc` object becomes an explicit
`CdIccState` record threaded through the load/save pipelines.  The lcms2
codec and the GLib I/O layer are external collaborators: their behaviour is
a parameter (`Env`) holding one function or flag per external call the core
makes, and an explicit `CmsProfile` record stands for the state behind a
`cmsHPROFILE` handle.  Doubles that hold ICC version numbers are modelled
as rationals: the code only compares them against the exact literals 0.0
and 4.0 and stores exact literals back, so order and equality at those
points coincide with the C doubles.
-/

/-- The `CdIccError` domain of `cd-icc.c`. -/
inductive CdError
  | FailedToOpen
  | FailedToParse
  | FailedToSave
  | InvalidLocale
  | NoData
deriving DecidableEq, Repr

/-- Is `b` a UTF-8 continuation byte (`0x80..0xbf`)? -/
def utf8Cont (b : Nat) : Bool := 0x80 ≤ b && b ≤ 0xbf

/-- `g_utf8_validate (str, len, NULL)`: well-formed UTF-8 check over the
first `len` bytes.  GLib rejects overlong encodings, surrogates, values
above U+10FFFF, and an embedded NUL byte (its scan stops at NUL and then
finds it has consumed fewer than `len` bytes). -/
def utf8Validate : List Nat → Bool
  | [] => true
  | b :: rest =>
    if b = 0 then false
    else if b ≤ 0x7f then utf8Validate rest
    else if 0xc2 ≤ b && b ≤ 0xdf then
      match rest with
      | c :: r => utf8Cont c && utf8Validate r
      | [] => false
    else if 0xe0 ≤ b && b ≤ 0xef then
      match rest with
      | c1 :: c2 :: r =>
        utf8Cont c1 && utf8Cont c2 &&
        (b ≠ 0xe0 || 0xa0 ≤ c1) && (b ≠ 0xed || c1 ≤ 0x9f) &&
        utf8Validate r
      | _ => false
    else if 0xf0 ≤ b && b ≤ 0xf4 then
      match rest with
      | c1 :: c2 :: c3 :: r =>
        utf8Cont c1 && utf8Cont c2 && utf8Cont c3 &&
        (b ≠ 0xf0 || 0x90 ≤ c1) && (b ≠ 0xf4 || c1 ≤ 0x8f) &&
        utf8Validate r
      | _ => false
    else false

/-- One iteration count of the repair loop in `cd_icc_fix_utf8_string`.
The C `for (i = 0; i < string->len; i++)` loop mutates the string in place:
a byte `0xae` is overwritten with `0xc2` and `0xae` is inserted after it
(the loop then skips the inserted byte via `i += 1`); a byte `0x86` is
erased in place (the element sliding into position `i` is then stepped
over by the loop increment).  `gas` is fuel bounding the iteration count:
the variant `s.length - i` shrinks by at least one per iteration, so
starting the fuel at the initial `s.length - i` reproduces the loop
exactly (when fuel hits 0 the loop guard `i < s.length` has failed too). -/
def cdFixLoop : Nat → List Nat → Nat → List Nat
  | 0, s, _ => s
  | gas + 1, s, i =>
    if h : i < s.length then
      let tmp := s.get ⟨i, h⟩
      if tmp = 0xae then
        cdFixLoop gas ((s.set i 0xc2).insertIdx (i + 1) 0xae) (i + 2)
      else if tmp = 0x86 then
        cdFixLoop gas (s.eraseIdx i) (i + 1)
      else
        cdFixLoop gas s (i + 1)
    else s

/-- `cd_icc_fix_utf8_string`: run the byte repair pass, then re-validate;
`some repaired` models returning TRUE with the mutated GString, `none`
models returning FALSE (the caller must drop the entry). -/
def cd_icc_fix_utf8_string (s : List Nat) : Option (List Nat) :=
  let s2 := cdFixLoop s.length s 0
  if utf8Validate s2 then some s2 else none

/-- Structural restatement of the repair pass: `0xae` becomes `0xc2 0xae`;
a `0x86` is dropped and the byte after it is passed through unexamined
(this is the observable effect of erasing at `i` and then incrementing
`i`).  Proved equal to `cdFixLoop` below; used to reason about the loop. -/
def cdFixSpec : List Nat → List Nat
  | [] => []
  | b :: rest =>
    if b = 0xae then 0xc2 :: 0xae :: cdFixSpec rest
    else if b = 0x86 then
      match rest with
      | [] => []
      | c :: rest2 => c :: cdFixSpec rest2
    else b :: cdFixSpec rest

/-- The repair transformation as the specification sentence describes it:
every `0xae` becomes `{0xc2, 0xae}` and every `0x86` (also inside a
consecutive run) is deleted.  Kept only to compare the spec's words with
the source-derived `cdFixSpec`. -/
def claimedRepair (s : List Nat) : List Nat :=
  s.flatMap fun b =>
    if b = 0xae then [0xc2, 0xae] else if b = 0x86 then [] else [b]

/-- Lowercase hex digit for a value below 16 (`%02x` formatting). -/
def hexChar (n : Nat) : Char :=
  if n < 10 then Char.ofNat (48 + n) else Char.ofNat (87 + n)

/-- Two lowercase hex digits of one byte. -/
def byteToHex (b : Nat) : List Char := [hexChar (b / 16), hexChar (b % 16)]

/-- The `g_snprintf (md5 + i * 2, 3, "%02x", icc_id[i])` loop of
`cd_icc_get_precooked_md5`: hex-encode a byte list, lowercase. -/
def hexEncode (bs : List Nat) : List Char := (bs.map byteToHex).flatten

/-- A NUL-terminated C string, as its list of characters up to the
terminator (locale strings are ASCII in practice; character positions and
byte positions coincide for everything the code inspects). -/
abbrev CStr := List Char

/-- `g_str_has_prefix`. -/
def listStartsWith : CStr → CStr → Bool
  | [], _ => true
  | _ :: _, [] => false
  | p :: ps, c :: cs => p = c && listStartsWith ps cs

/-- `g_strsplit (key, sep, -1)` for a one-character separator: split at
every occurrence, keeping empty segments. -/
def splitOnChar (sep : Char) : CStr → List CStr
  | [] => [[]]
  | c :: rest =>
    let r := splitOnChar sep rest
    if c = sep then [] :: r
    else (c :: r.headD []) :: r.tail

/-- Everything after the first occurrence of `sep` (the `tmp + 1` pointer
after a successful `g_strstr_len`), or `[]` when absent. -/
def afterFirst (sep : Char) : CStr → CStr
  | [] => []
  | c :: rest => if c = sep then rest else afterFirst sep rest

/-- `CdProfileKind` (colord device classes used by the mapping table). -/
inductive CdProfileKind
  | unknown
  | inputDevice
  | displayDevice
  | outputDevice
  | devicelink
  | colorspaceConversion
  | abstract
  | namedColor
  | last
deriving DecidableEq, Repr

/-- `CdColorspace` (colord colorspaces used by the mapping table). -/
inductive CdColorspace
  | unknown
  | xyz
  | lab
  | luv
  | ycbcr
  | yxy
  | rgb
  | gray
  | hsv
  | cmyk
  | cmy
  | last
deriving DecidableEq, Repr

/-- `map_profile_kind`: lcms device-class signature to colord kind, with
the `{0, CD_PROFILE_KIND_LAST}` sentinel terminating the scan. -/
def map_profile_kind : List (Nat × CdProfileKind) :=
  [ (0x73636E72, .inputDevice),            -- cmsSigInputClass 'scnr'
    (0x6D6E7472, .displayDevice),          -- cmsSigDisplayClass 'mntr'
    (0x70727472, .outputDevice),           -- cmsSigOutputClass 'prtr'
    (0x6C696E6B, .devicelink),             -- cmsSigLinkClass 'link'
    (0x73706163, .colorspaceConversion),   -- cmsSigColorSpaceClass 'spac'
    (0x61627374, .abstract),               -- cmsSigAbstractClass 'abst'
    (0x6E6D636C, .namedColor),             -- cmsSigNamedColorClass 'nmcl'
    (0, .last) ]

/-- `map_colorspace`: lcms colorspace signature to colord colorspace, with
the `{0, CD_COLORSPACE_LAST}` sentinel terminating the scan. -/
def map_colorspace : List (Nat × CdColorspace) :=
  [ (0x58595A20, .xyz),
    (0x4C616220, .lab),
    (0x4C757620, .luv),
    (0x59436272, .ycbcr),
    (0x59787920, .yxy),
    (0x52474220, .rgb),
    (0x47524159, .gray),
    (0x48535620, .hsv),
    (0x434D594B, .cmyk),
    (0x434D5920, .cmy),
    (0, .last) ]

/-- The lookup loops of `cd_icc_load`: walk the table until the colord
sentinel, returning the first colord value whose lcms signature matches;
`none` means the loop fell through (the model field is left untouched). -/
def scanLcmsToColord {α : Type} [DecidableEq α] (lastv : α) :
    List (Nat × α) → Nat → Option α
  | [], _ => none
  | (l, c) :: rest, sig =>
    if c = lastv then none
    else if l = sig then some c
    else scanLcmsToColord lastv rest sig

/-- The reverse lookup loops of `cd_icc_save_file`: walk the table until
the sentinel, returning the lcms signature of the first matching colord
value; `none` leaves the native header field untouched. -/
def scanColordToLcms {α : Type} [DecidableEq α] (lastv : α) :
    List (Nat × α) → α → Option Nat
  | [], _ => none
  | (l, c) :: rest, k =>
    if c = lastv then none
    else if c = k then some l
    else scanColordToLcms lastv rest k

/-- One entry of the codec's named-color list as `cmsNamedColorInfo`
reports it: a success flag, the three name parts and the raw encoded
connection-space triple. -/
structure NamedColorEntry where
  infoOk : Bool
  name : List Nat
  namePre : List Nat
  nameSuf : List Nat
  pcs : Nat × Nat × Nat
deriving DecidableEq, Repr

/-- `CdMluObject` of `cd-icc.c`: language/country codes (NULL modelled as
`none`) and the wide-converted text (`none` models a NULL `wtext`, which
the untranslated branch of the parser can produce). -/
structure CdMluObject where
  language_code : Option CStr
  country_code : Option CStr
  wtext : Option (List Nat)
deriving DecidableEq, Repr

/-- Payload written through `cmsWriteTag` by this module: a multilingual
text object or a metadata dictionary. -/
inductive TagContent
  | mluc (recs : List CdMluObject)
  | dict (entries : List (List Nat × List Nat))
deriving DecidableEq, Repr

/-- The state behind a `cmsHPROFILE` handle, as far as the core reads or
writes it.  Read-side fields (`metaDict`, `mluTags`, `namedColorList`)
describe what the opened profile contains; `writtenTags` records the
effect of the `cmsWriteTag` calls the core itself makes. -/
structure CmsProfile where
  version : ℚ
  deviceClass : Nat
  colorSpace : Nat
  profileId : List Nat
  metaDict : Option (List (List Nat × List Nat))
  mluTags : List (Nat × Nat)
  namedColorList : Option (List NamedColorEntry)
  writtenTags : List (Nat × Option TagContent)
deriving DecidableEq, Repr

/-- One call the core makes against the codec handle, for ordering
properties (e.g. version promotion happening before a tag write). -/
inductive CodecCall
  | setDeviceClass (sig : Nat)
  | setColorSpace (sig : Nat)
  | setVersion (v : ℚ)
  | writeTag (sig : Nat) (content : Option TagContent)
  | computeId
deriving DecidableEq, Repr

/-- Behaviour of the external collaborators (lcms2 codec, GLib I/O,
libc locale conversion): one field per call the core makes. -/
structure Env where
  openFromMem : List Nat → Option CmsProfile
  fdopenOk : Bool
  openFromStream : Option CmsProfile
  fileLoadContents : Option (List Nat)
  queryCanDelete : Option Bool
  filePath : CStr
  md5 : List Nat → List Char
  mluGetWide : Nat → CStr → CStr → Option (List Nat)
  wcstombsDec : List Nat → Option (List Nat)
  wcsGarbage : List Nat → List Nat
  mluSetWideOk : Option CStr → Option CStr → Option (List Nat) → Bool
  writeTagOk : Nat → Bool
  md5ComputeOk : Bool
  computeId : CmsProfile → List Nat
  saveLenOk : Bool
  saveMemOk : Bool
  replaceOk : Bool
  labDecode : Nat × Nat × Nat → ℚ × ℚ × ℚ

/-- The four localized text fields (`CdIccMluc` without its LAST). -/
inductive CdIccMluc
  | description
  | copyright
  | manufacturer
  | model
deriving DecidableEq, Repr

/-- `CdIccPrivate`: the profile model.  Hash tables become association
lists (key uniqueness maintained by the insert helper; GLib hash order is
unspecified and no claim depends on it). -/
structure CdIccState where
  kind : CdProfileKind
  colorspace : CdColorspace
  lcms_profile : Option CmsProfile
  can_delete : Bool
  checksum : Option (List Char)
  filename : Option CStr
  version : ℚ
  mlucDescription : List (CStr × List Nat)
  mlucCopyright : List (CStr × List Nat)
  mlucManufacturer : List (CStr × List Nat)
  mlucModel : List (CStr × List Nat)
  metadata : List (List Nat × List Nat)
  size : Nat
  named_colors : List (List Nat × (ℚ × ℚ × ℚ))
deriving DecidableEq, Repr

/-- `cd_icc_init`: the freshly constructed, not-yet-loaded object. -/
def cd_icc_init : CdIccState :=
  { kind := .unknown
    colorspace := .unknown
    lcms_profile := none
    can_delete := false
    checksum := none
    filename := none
    version := 0
    mlucDescription := []
    mlucCopyright := []
    mlucManufacturer := []
    mlucModel := []
    metadata := []
    size := 0
    named_colors := [] }

/-- `g_hash_table_lookup` on an association list. -/
def alistGet {κ ν : Type} [DecidableEq κ] (m : List (κ × ν)) (k : κ) : Option ν :=
  (m.find? fun p => p.1 = k).map Prod.snd

/-- `g_hash_table_insert`: replace any entry with the same key. -/
def alistPut {κ ν : Type} [DecidableEq κ] (m : List (κ × ν)) (k : κ) (v : ν) :
    List (κ × ν) :=
  m.filter (fun p => p.1 ≠ k) ++ [(k, v)]

/-- `g_hash_table_remove`. -/
def alistRemove {κ ν : Type} [DecidableEq κ] (m : List (κ × ν)) (k : κ) :
    List (κ × ν) :=
  m.filter fun p => p.1 ≠ k

/-- The per-field cache `priv->mluc_data[mluc]`. -/
def getMlucTable (st : CdIccState) : CdIccMluc → List (CStr × List Nat)
  | .description => st.mlucDescription
  | .copyright => st.mlucCopyright
  | .manufacturer => st.mlucManufacturer
  | .model => st.mlucModel

/-- Store an updated per-field cache back into the state. -/
def setMlucTable (st : CdIccState) : CdIccMluc → List (CStr × List Nat) → CdIccState
  | .description, t => { st with mlucDescription := t }
  | .copyright, t => { st with mlucCopyright := t }
  | .manufacturer, t => { st with mlucManufacturer := t }
  | .model, t => { st with mlucModel := t }

def cmsSigProfileDescriptionTag : Nat := 0x64657363
def cmsSigDscmTag : Nat := 0x6473636d
def cmsSigCopyrightTag : Nat := 0x63707274
def cmsSigDeviceMfgDescTag : Nat := 0x646D6E64
def cmsSigDeviceModelDescTag : Nat := 0x646D6464
def cmsSigMetaTag : Nat := 0x6D657461
def cmsSigNamedColor2Type : Nat := 0x6E636C32

/-- `cd_icc_get_locale_key`: NULL or an `en_US...` locale maps to the
default key `""`; otherwise the locale truncated at the first `.` or `(`
(`g_strdelimit (locale_key, ".(", '\0')` on a C string). -/
def cd_icc_get_locale_key (locale : Option CStr) : CStr :=
  match locale with
  | none => []
  | some loc =>
    if listStartsWith ['e', 'n', '_', 'U', 'S'] loc then []
    else loc.takeWhile fun c => c != '.' && c != '('

/-- The in-function decomposition of `cd_icc_get_mluc_data` (lines
1606-1633): the empty key keeps both codes empty (`cmsNoLanguage` /
`cmsNoCountry`); otherwise the key is split at the first `_` (the country
part keeps any further `_`), the language must be exactly 2 characters
and a non-empty country part must be exactly 2 characters, else
`CD_ICC_ERROR_INVALID_LOCALE`. -/
def cd_icc_decompose_key (key : CStr) : Option (CStr × CStr) :=
  if key = [] then some ([], [])
  else
    let language_code := key.takeWhile fun c => c != '_'
    let country_code := if key.any (· = '_') then afterFirst '_' key else []
    if language_code.length ≠ 2 then none
    else if country_code ≠ [] ∧ country_code.length ≠ 2 then none
    else some (language_code, country_code)

/-- The `for (i = 0; sigs[i] != 0; i++) { mlu = cmsReadTag ...; if
(mlu != NULL) break; }` loop: first candidate tag present in the profile,
scanning until the 0 sentinel. -/
def cd_icc_find_mlu (prof : CmsProfile) : List Nat → Option Nat
  | [] => none
  | sig :: rest =>
    if sig = 0 then none
    else
      match alistGet prof.mluTags sig with
      | some h => some h
      | none => cd_icc_find_mlu prof rest

/-- Result of a localized-text get: the returned string (or NULL), the
`GError` out-parameter, and the possibly cache-updated model state. -/
structure GetResult where
  value : Option (List Nat)
  err : Option CdError
  state : CdIccState
deriving DecidableEq, Repr

/-- `cd_icc_get_mluc_data`: check the cache, decompose the locale key,
find the first readable candidate tag, query the codec for the
(language, country) pair, narrow the wide text, and cache on success.
When the tag exists but `cmsMLUgetWide` reports size 0 the function jumps
to `out` returning NULL with the error left unset. -/
def cd_icc_get_mluc_data (env : Env) (st : CdIccState) (prof : CmsProfile)
    (locale : Option CStr) (mluc : CdIccMluc) (sigs : List Nat) : GetResult :=
  let locale_key := cd_icc_get_locale_key locale
  match alistGet (getMlucTable st mluc) locale_key with
  | some v => ⟨some v, none, st⟩
  | none =>
    match cd_icc_decompose_key locale_key with
    | none => ⟨none, some .InvalidLocale, st⟩
    | some (language_code, country_code) =>
      match cd_icc_find_mlu prof sigs with
      | none => ⟨none, some .NoData, st⟩
      | some mlu =>
        match env.mluGetWide mlu language_code country_code with
        | none => ⟨none, none, st⟩
        | some wtext =>
          match env.wcstombsDec wtext with
          | none => ⟨none, some .NoData, st⟩
          | some text =>
            ⟨some text, none,
             setMlucTable st mluc (alistPut (getMlucTable st mluc) locale_key text)⟩

/-- `cd_icc_get_description`: tries the Apple-specific `dscm` alias before
the standard description tag. -/
def cd_icc_get_description (env : Env) (st : CdIccState) (prof : CmsProfile)
    (locale : Option CStr) : GetResult :=
  cd_icc_get_mluc_data env st prof locale .description
    [cmsSigDscmTag, cmsSigProfileDescriptionTag, 0]

/-- `cd_icc_get_copyright`. -/
def cd_icc_get_copyright (env : Env) (st : CdIccState) (prof : CmsProfile)
    (locale : Option CStr) : GetResult :=
  cd_icc_get_mluc_data env st prof locale .copyright [cmsSigCopyrightTag, 0]

/-- `cd_icc_get_manufacturer`. -/
def cd_icc_get_manufacturer (env : Env) (st : CdIccState) (prof : CmsProfile)
    (locale : Option CStr) : GetResult :=
  cd_icc_get_mluc_data env st prof locale .manufacturer [cmsSigDeviceMfgDescTag, 0]

/-- `cd_icc_get_model`. -/
def cd_icc_get_model (env : Env) (st : CdIccState) (prof : CmsProfile)
    (locale : Option CStr) : GetResult :=
  cd_icc_get_mluc_data env st prof locale .model [cmsSigDeviceModelDescTag, 0]

/-- `utf8_to_wchar_t`: `mbstowcs` in a UTF-8 locale fails exactly on an
invalid multibyte (= invalid UTF-8) input, returning NULL here.  The model
keeps the byte form as the wide representation: only success/failure and
round-trip identity are observable to the core. -/
def utf8_to_wchar_t (s : List Nat) : Option (List Nat) :=
  if utf8Validate s then some s else none

/-- `_cmsDictAddEntryAscii`: convert key and value to wide text; on either
conversion failing return FALSE without touching the dict, otherwise
append the entry (`cmsDictAddEntry`). -/
def _cmsDictAddEntryAscii (dict : List (List Nat × List Nat))
    (key value : List Nat) : List (List Nat × List Nat) × Bool :=
  match utf8_to_wchar_t key with
  | none => (dict, false)
  | some mb_key =>
    match utf8_to_wchar_t value with
    | none => (dict, false)
    | some mb_value => (dict ++ [(mb_key, mb_value)], true)

/-- The metadata loop of `cd_icc_save_file`: add every pair through
`_cmsDictAddEntryAscii`, ignoring its return value. -/
def buildMetaDict (md : List (List Nat × List Nat)) : List (List Nat × List Nat) :=
  md.foldl (fun dict kv => (_cmsDictAddEntryAscii dict kv.1 kv.2).1) []

/-- `cd_util_mlu_object_parse`: the write-path locale filter.  An empty
(or NULL) locale yields the untranslated record (its `wtext` may still be
NULL when the text is invalid UTF-8); a locale containing `@` is ignored;
otherwise the key is truncated at the first `.`, split on every `_`, the
first segment must have exactly 2 characters, more than two segments is
no match, the text must convert to wide chars, and a present second
segment must have exactly 2 characters. -/
def cd_util_mlu_object_parse (locale : CStr) (utf8_text : List Nat) :
    Option CdMluObject :=
  if locale = [] then some ⟨none, none, utf8_to_wchar_t utf8_text⟩
  else if locale.any (· = '@') then none
  else
    let key := locale.takeWhile fun c => c != '.'
    let split := splitOnChar '_' key
    if (split.headD []).length ≠ 2 then none
    else if split.length > 2 then none
    else
      match utf8_to_wchar_t utf8_text with
      | none => none
      | some wtext =>
        if split.length = 1 then some ⟨some (split.headD []), none, some wtext⟩
        else if (split.getD 1 []).length ≠ 2 then none
        else some ⟨some (split.headD []), some (split.getD 1 []), some wtext⟩

/-- Effect of `cmsWriteTag (profile, sig, data)` on the handle when the
codec accepts it: `none` data deletes the tag, otherwise it replaces it. -/
def writeTagProfile (p : CmsProfile) (sig : Nat) (c : Option TagContent) :
    CmsProfile :=
  { p with writtenTags := (sig, c) :: p.writtenTags.filter fun q => q.1 ≠ sig }

/-- What the write log holds for `sig`: `none` if never written,
`some none` if deleted, `some (some c)` if written with content `c`. -/
def tagsWrittenGet (p : CmsProfile) (sig : Nat) : Option (Option TagContent) :=
  (p.writtenTags.find? fun q => q.1 = sig).map Prod.snd

/-- The `cmsMLUsetWide` loop of `cd_util_write_tag_localized`: every
record must be accepted by the codec (NULL language/country stand for
`cmsNoLanguage`/`cmsNoCountry`). -/
def cd_util_mlu_fill (env : Env) : List CdMluObject → Bool
  | [] => true
  | o :: rest =>
    env.mluSetWideOk o.language_code o.country_code o.wtext && cd_util_mlu_fill env rest

/-- Result of `cd_util_write_tag_localized` and of `cd_icc_save_file`:
the C return value, the `GError`, the codec handle state, and the ordered
log of calls made against the handle (failed `cmsWriteTag` attempts are
logged too; their effect is just not applied). -/
structure WriteResult where
  ret : Bool
  err : Option CdError
  profile : CmsProfile
  trace : List CodecCall
deriving DecidableEq, Repr

/-- `cd_util_write_tag_localized`: parse every hash entry, dropping the
ones the filter rejects; with no survivors delete the tag (ignoring the
codec's result) and return TRUE; with more than one survivor on a profile
version below 4.0 promote the native version to exactly 4.0 first; fill
the MLU (any `cmsMLUsetWide` failure is `FailedToSave`), write the tag
(failure is `FailedToSave`), and for the description tag additionally
delete the Apple-specific `dscm` duplicate. -/
def cd_util_write_tag_localized (env : Env) (st : CdIccState) (prof : CmsProfile)
    (sig : Nat) (hash : List (CStr × List Nat)) : WriteResult :=
  let array := hash.filterMap fun kv => cd_util_mlu_object_parse kv.1 kv.2
  if array.length = 0 then
    ⟨true, none,
     if env.writeTagOk sig then writeTagProfile prof sig none else prof,
     [.writeTag sig none]⟩
  else
    let prof2 :=
      if array.length > 1 ∧ st.version < 4 then { prof with version := 4 } else prof
    let tr :=
      if array.length > 1 ∧ st.version < 4 then [CodecCall.setVersion 4] else []
    if ¬ cd_util_mlu_fill env array then
      ⟨false, some .FailedToSave, prof2, tr⟩
    else if ¬ env.writeTagOk sig then
      ⟨false, some .FailedToSave, prof2, tr ++ [.writeTag sig (some (.mluc array))]⟩
    else
      let prof3 := writeTagProfile prof2 sig (some (.mluc array))
      let tr3 := tr ++ [.writeTag sig (some (.mluc array))]
      if sig = cmsSigProfileDescriptionTag then
        ⟨true, none,
         if env.writeTagOk cmsSigDscmTag then writeTagProfile prof3 cmsSigDscmTag none
         else prof3,
         tr3 ++ [.writeTag cmsSigDscmTag none]⟩
      else
        ⟨true, none, prof3, tr3⟩

/-- `cd_icc_get_precooked_md5`: NULL unless some of the 16 embedded
profile-identifier bytes is non-zero, in which case the 32-character
lowercase hex encoding. -/
def cd_icc_get_precooked_md5 (prof : CmsProfile) : Option (List Char) :=
  if prof.profileId.any (· ≠ 0) then some (hexEncode prof.profileId) else none

/-- The recognized `CdIccLoadFlags`. -/
structure CdIccLoadFlags where
  metadata : Bool
  namedColors : Bool
  translations : Bool
  fallbackMd5 : Bool
deriving DecidableEq, Repr

/-- `cd_icc_load_named_colors`: for each entry of the codec's list whose
`cmsNamedColorInfo` succeeded, compose `prefix + " " + name + " " + suffix`
(empty parts omitted), validate as UTF-8, repair on failure, drop the
entry if still invalid, and store the swatch with the decoded Lab value
(`cmsLabEncoded2Float` is codec math, taken from the environment). -/
def cd_icc_load_named_colors (env : Env) (prof : CmsProfile) :
    List (List Nat × (ℚ × ℚ × ℚ)) :=
  match prof.namedColorList with
  | none => []
  | some entries =>
    entries.filterMap fun e =>
      if ¬ e.infoOk then none
      else
        let s := (if e.namePre ≠ [] then e.namePre ++ [0x20] else []) ++ e.name ++
                 (if e.nameSuf ≠ [] then [0x20] ++ e.nameSuf else [])
        if utf8Validate s then some (s, env.labDecode e.pcs)
        else
          match cd_icc_fix_utf8_string s with
          | some s2 => some (s2, env.labDecode e.pcs)
          | none => none

/-- The version/kind/colorspace part of `cd_icc_load`: version from the
header, then the two table scans (an unmatched signature leaves the model
field as it was). -/
def cd_icc_load_header (st : CdIccState) (prof : CmsProfile) : CdIccState :=
  let st := { st with version := prof.version }
  let st :=
    match scanLcmsToColord CdProfileKind.last map_profile_kind prof.deviceClass with
    | some k => { st with kind := k }
    | none => st
  match scanLcmsToColord CdColorspace.last map_colorspace prof.colorSpace with
  | some c => { st with colorspace := c }
  | none => st

/-- The optional metadata decode of `cd_icc_load`: when requested and the
dict tag exists, insert every entry (the C ignores `wcstombs` failures
and stores whatever the stack buffer holds — `wcsGarbage` stands for that
content). -/
def cd_icc_load_metadata_step (env : Env) (st : CdIccState) (prof : CmsProfile)
    (flags : CdIccLoadFlags) : CdIccState :=
  if flags.metadata then
    match prof.metaDict with
    | some entries =>
      { st with
        metadata := entries.foldl
          (fun md kv =>
            alistPut md ((env.wcstombsDec kv.1).getD (env.wcsGarbage kv.1))
              ((env.wcstombsDec kv.2).getD (env.wcsGarbage kv.2)))
          st.metadata }
    | none => st
  else st

/-- The four eager default-locale reads of `cd_icc_load`, errors
discarded (only the caches may change). -/
def cd_icc_load_translations_step (env : Env) (st : CdIccState)
    (prof : CmsProfile) : CdIccState :=
  let st := (cd_icc_get_description env st prof none).state
  let st := (cd_icc_get_copyright env st prof none).state
  let st := (cd_icc_get_manufacturer env st prof none).state
  (cd_icc_get_model env st prof none).state

/-- The optional named-color extraction of `cd_icc_load`. -/
def cd_icc_load_named_step (env : Env) (st : CdIccState) (prof : CmsProfile)
    (flags : CdIccLoadFlags) : CdIccState :=
  if flags.namedColors then
    { st with named_colors := st.named_colors ++ cd_icc_load_named_colors env prof }
  else st

/-- `cd_icc_load`: common post-open population, in source order — header
fields, optional metadata decode, the precooked checksum, the four eager
default-translation reads, optional named colors. -/
def cd_icc_load (env : Env) (st : CdIccState) (prof : CmsProfile)
    (flags : CdIccLoadFlags) : CdIccState :=
  let st := cd_icc_load_header st prof
  let st := cd_icc_load_metadata_step env st prof flags
  let st := { st with checksum := cd_icc_get_precooked_md5 prof }
  let st := cd_icc_load_translations_step env st prof
  cd_icc_load_named_step env st prof flags

/-- Result of a load entry point: the C return value, the `GError`, the
final model state, and whether the codec was ever asked to open the
input. -/
structure LoadResult where
  ret : Bool
  err : Option CdError
  state : CdIccState
  openAttempted : Bool
deriving DecidableEq, Repr

/-- `cd_icc_load_data`: the byte-buffer load path.  A zero-length buffer
(like a NULL data pointer or an already-loaded object) trips a
`g_return_val_if_fail`, returning FALSE with no error set; a buffer
shorter than 0x84 = 132 bytes is rejected with `FailedToParse` before the
codec is asked to open it; a codec rejection is `FailedToParse`; on
success the size is taken from the actual input length, the common
population runs, and the MD5 fallback fills a still-unset checksum when
requested. -/
def cd_icc_load_data (env : Env) (st : CdIccState) (data : List Nat)
    (flags : CdIccLoadFlags) : LoadResult :=
  if data.length = 0 then ⟨false, none, st, false⟩
  else if st.lcms_profile.isSome then ⟨false, none, st, false⟩
  else if data.length < 0x84 then ⟨false, some .FailedToParse, st, false⟩
  else
    match env.openFromMem data with
    | none => ⟨false, some .FailedToParse, { st with lcms_profile := none }, true⟩
    | some prof =>
      let st := { st with lcms_profile := some prof, size := data.length }
      let st := cd_icc_load env st prof flags
      let st :=
        if st.checksum = none ∧ flags.fallbackMd5 then
          { st with checksum := some (env.md5 data) }
        else st
      ⟨true, none, st, true⟩

/-- `cd_icc_load_file`: read all bytes (failure is `FailedToOpen`), parse
them via `cd_icc_load_data`, then query the delete permission (failure is
`FailedToOpen`, but the parse has already populated the model) and store
it with the resolved path. -/
def cd_icc_load_file (env : Env) (st : CdIccState) (flags : CdIccLoadFlags) :
    LoadResult :=
  match env.fileLoadContents with
  | none => ⟨false, some .FailedToOpen, st, false⟩
  | some data =>
    let r := cd_icc_load_data env st data flags
    if ¬ r.ret then r
    else
      match env.queryCanDelete with
      | none => ⟨false, some .FailedToOpen, r.state, r.openAttempted⟩
      | some cd =>
        ⟨true, none,
         { r.state with can_delete := cd, filename := some env.filePath },
         r.openAttempted⟩

/-- `cd_icc_load_fd`: convert the descriptor to a stream (failure is
`FailedToOpen`), open it through the codec (failure is `FailedToOpen`),
then run the common population.  Note: unlike the buffer path, neither
`size` nor the MD5 fallback is ever touched here. -/
def cd_icc_load_fd (env : Env) (st : CdIccState) (flags : CdIccLoadFlags) :
    LoadResult :=
  if ¬ env.fdopenOk then ⟨false, some .FailedToOpen, st, false⟩
  else
    match env.openFromStream with
    | none => ⟨false, some .FailedToOpen, st, true⟩
    | some prof =>
      let st := { st with lcms_profile := some prof }
      ⟨true, none, cd_icc_load env st prof flags, true⟩

/-- `cd_icc_get_size` (0 means unknown). -/
def cd_icc_get_size (st : CdIccState) : Nat := st.size

/-- `cd_icc_get_checksum`. -/
def cd_icc_get_checksum (st : CdIccState) : Option (List Char) := st.checksum

/-- `cd_icc_get_can_delete`. -/
def cd_icc_get_can_delete (st : CdIccState) : Bool := st.can_delete

/-- `cd_icc_set_version`. -/
def cd_icc_set_version (st : CdIccState) (v : ℚ) : CdIccState :=
  { st with version := v }

/-- `cd_icc_set_kind`. -/
def cd_icc_set_kind (st : CdIccState) (k : CdProfileKind) : CdIccState :=
  { st with kind := k }

/-- `cd_icc_set_colorspace`. -/
def cd_icc_set_colorspace (st : CdIccState) (c : CdColorspace) : CdIccState :=
  { st with colorspace := c }

/-- `cd_icc_add_metadata` (insert/overwrite). -/
def cd_icc_add_metadata (st : CdIccState) (key value : List Nat) : CdIccState :=
  { st with metadata := alistPut st.metadata key value }

/-- `cd_icc_remove_metadata`. -/
def cd_icc_remove_metadata (st : CdIccState) (key : List Nat) : CdIccState :=
  { st with metadata := alistRemove st.metadata key }

/-- `cd_icc_set_description` (and the three analogous setters below):
insert/overwrite under the canonical locale key; no validation here. -/
def cd_icc_set_description (st : CdIccState) (locale : Option CStr)
    (value : List Nat) : CdIccState :=
  { st with
    mlucDescription := alistPut st.mlucDescription (cd_icc_get_locale_key locale) value }

/-- `cd_icc_set_copyright`. -/
def cd_icc_set_copyright (st : CdIccState) (locale : Option CStr)
    (value : List Nat) : CdIccState :=
  { st with
    mlucCopyright := alistPut st.mlucCopyright (cd_icc_get_locale_key locale) value }

/-- `cd_icc_set_manufacturer`. -/
def cd_icc_set_manufacturer (st : CdIccState) (locale : Option CStr)
    (value : List Nat) : CdIccState :=
  { st with
    mlucManufacturer := alistPut st.mlucManufacturer (cd_icc_get_locale_key locale) value }

/-- `cd_icc_set_model`. -/
def cd_icc_set_model (st : CdIccState) (locale : Option CStr)
    (value : List Nat) : CdIccState :=
  { st with
    mlucModel := alistPut st.mlucModel (cd_icc_get_locale_key locale) value }

/-- The tail of `cd_icc_save_file` after the metadata step: write the four
localized tags in fixed source order (description, copyright,
manufacturer, model), aborting on the first failure; recompute and embed
the profile identifier; serialize (length query, then fill); atomically
replace the destination file.  Each failing step is `FailedToSave` and
aborts the rest.  `tr` is the call log accumulated so far. -/
def cd_icc_save_translations (env : Env) (st : CdIccState) (prof : CmsProfile)
    (tr : List CodecCall) : WriteResult :=
  let r1 := cd_util_write_tag_localized env st prof cmsSigProfileDescriptionTag
    st.mlucDescription
  if ¬ r1.ret then ⟨false, r1.err, r1.profile, tr ++ r1.trace⟩
  else
    let r2 := cd_util_write_tag_localized env st r1.profile cmsSigCopyrightTag
      st.mlucCopyright
    if ¬ r2.ret then ⟨false, r2.err, r2.profile, tr ++ r1.trace ++ r2.trace⟩
    else
      let r3 := cd_util_write_tag_localized env st r2.profile cmsSigDeviceMfgDescTag
        st.mlucManufacturer
      if ¬ r3.ret then
        ⟨false, r3.err, r3.profile, tr ++ r1.trace ++ r2.trace ++ r3.trace⟩
      else
        let r4 := cd_util_write_tag_localized env st r3.profile cmsSigDeviceModelDescTag
          st.mlucModel
        if ¬ r4.ret then
          ⟨false, r4.err, r4.profile, tr ++ r1.trace ++ r2.trace ++ r3.trace ++ r4.trace⟩
        else
          let prof := r4.profile
          let tr := tr ++ r1.trace ++ r2.trace ++ r3.trace ++ r4.trace ++
            [CodecCall.computeId]
          if ¬ env.md5ComputeOk then ⟨false, some .FailedToSave, prof, tr⟩
          else
            let prof := { prof with profileId := env.computeId prof }
            if ¬ env.saveLenOk then ⟨false, some .FailedToSave, prof, tr⟩
            else if ¬ env.saveMemOk then ⟨false, some .FailedToSave, prof, tr⟩
            else if ¬ env.replaceOk then ⟨false, some .FailedToSave, prof, tr⟩
            else ⟨true, none, prof, tr⟩

/-- The head of `cd_icc_save_file`: map kind and colorspace back to
native signatures (an unmatched value leaves the native header field
untouched) and set the native version when the model version is
positive.  Returns the updated handle and the call log. -/
def cd_icc_save_header (st : CdIccState) (prof : CmsProfile) :
    CmsProfile × List CodecCall :=
  let pk := scanColordToLcms CdProfileKind.last map_profile_kind st.kind
  let prof := match pk with
    | some lsig => { prof with deviceClass := lsig }
    | none => prof
  let tr := match pk with
    | some lsig => [CodecCall.setDeviceClass lsig]
    | none => []
  let cs := scanColordToLcms CdColorspace.last map_colorspace st.colorspace
  let prof := match cs with
    | some lsig => { prof with colorSpace := lsig }
    | none => prof
  let tr := match cs with
    | some lsig => tr ++ [CodecCall.setColorSpace lsig]
    | none => tr
  let prof := if st.version > 0 then { prof with version := st.version } else prof
  let tr := if st.version > 0 then tr ++ [CodecCall.setVersion st.version] else tr
  (prof, tr)

/-- The body of `cd_icc_save_file`, acting on the codec handle only (the
C function never writes any `priv` field; the factoring makes that
visible).  After the header step: write the metadata dictionary when the
map is non-empty (a codec rejection is `FailedToSave`; the per-entry
`_cmsDictAddEntryAscii` return values are ignored) or delete the metadata
tag when empty (result ignored), then run the tail steps. -/
def cd_icc_save_core (env : Env) (st : CdIccState) (prof : CmsProfile) :
    WriteResult :=
  let ph := cd_icc_save_header st prof
  let prof := ph.1
  let tr := ph.2
  if st.metadata.length ≠ 0 then
    let dict := buildMetaDict st.metadata
    let tr := tr ++ [CodecCall.writeTag cmsSigMetaTag (some (.dict dict))]
    if ¬ env.writeTagOk cmsSigMetaTag then ⟨false, some .FailedToSave, prof, tr⟩
    else
      cd_icc_save_translations env st
        (writeTagProfile prof cmsSigMetaTag (some (.dict dict))) tr
  else
    let tr := tr ++ [CodecCall.writeTag cmsSigMetaTag none]
    let prof :=
      if env.writeTagOk cmsSigMetaTag then writeTagProfile prof cmsSigMetaTag none
      else prof
    cd_icc_save_translations env st prof tr

/-- Result of `cd_icc_save_file`: the return value, the `GError`, the
(unwritten) model state, the codec handle state, and the call log. -/
structure SaveResult where
  ret : Bool
  err : Option CdError
  state : CdIccState
  profile : CmsProfile
  trace : List CodecCall
deriving DecidableEq, Repr

/-- `cd_icc_save_file`: the save pipeline; `prof` is the dereferenced
`priv->lcms_profile` handle (the C caller guarantees the object is
loaded).  The model state rides through untouched, exactly as no `priv`
field is assigned anywhere in the C function. -/
def cd_icc_save_file (env : Env) (st : CdIccState) (prof : CmsProfile) :
    SaveResult :=
  let r := cd_icc_save_core env st prof
  ⟨r.ret, r.err, st, r.profile, r.trace⟩

/-- A concrete external-collaborator behaviour used to instantiate
theorems: nothing opens, every codec write succeeds, `wcstombs` is exact
on valid input. -/
def envBase : Env :=
  { openFromMem := fun _ => none
    fdopenOk := false
    openFromStream := none
    fileLoadContents := none
    queryCanDelete := none
    filePath := []
    md5 := fun _ => hexEncode (List.replicate 16 0)
    mluGetWide := fun _ _ _ => none
    wcstombsDec := fun w => some w
    wcsGarbage := fun _ => []
    mluSetWideOk := fun _ _ _ => true
    writeTagOk := fun _ => true
    md5ComputeOk := true
    computeId := fun _ => List.replicate 16 1
    saveLenOk := true
    saveMemOk := true
    replaceOk := true
    labDecode := fun _ => (0, 0, 0) }

/-- A concrete opened display/RGB v2 profile with an all-zero embedded
identifier and no readable tags. -/
def profBase : CmsProfile :=
  { version := 2
    deviceClass := 0x6D6E7472
    colorSpace := 0x52474220
    profileId := List.replicate 16 0
    metaDict := none
    mluTags := []
    namedColorList := none
    writtenTags := [] }

/-- Load with no optional behaviour requested. -/
def flagsNone : CdIccLoadFlags := ⟨false, false, false, false⟩

/-- Once the index has reached the length, the repair loop stops whatever
fuel is left. -/
lemma cdFixLoop_out (gas : Nat) (s : List Nat) (i : Nat) (h : s.length ≤ i) :
    cdFixLoop gas s i = s := by
  cases gas with
  | zero => rfl
  | succ g => simp [cdFixLoop, Nat.not_lt.mpr h]

lemma get_append_len (acc : List Nat) (b : Nat) (rest : List Nat)
    (h : acc.length < (acc ++ b :: rest).length) :
    (acc ++ b :: rest).get ⟨acc.length, h⟩ = b := by
  induction acc with
  | nil => rfl
  | cons a t ih => exact ih (by simp)

lemma set_append_len (acc : List Nat) (b v : Nat) (rest : List Nat) :
    (acc ++ b :: rest).set acc.length v = acc ++ v :: rest := by
  induction acc with
  | nil => rfl
  | cons a t ih => simp [ih]

lemma insertIdx_append_len (acc : List Nat) (x : Nat) (rest : List Nat) :
    (acc ++ rest).insertIdx acc.length x = acc ++ x :: rest := by
  induction acc with
  | nil => rfl
  | cons a t ih => simpa [List.insertIdx] using ih

lemma eraseIdx_append_len (acc : List Nat) (b : Nat) (rest : List Nat) :
    (acc ++ b :: rest).eraseIdx acc.length = acc ++ rest := by
  induction acc with
  | nil => rfl
  | cons a t ih => simpa using ih

/-- Unfolding one iteration of the repair loop while the guard holds. -/
lemma cdFixLoop_succ (g : Nat) (s : List Nat) (i : Nat) (h : i < s.length) :
    cdFixLoop (g + 1) s i =
      if s.get ⟨i, h⟩ = 0xae then
        cdFixLoop g ((s.set i 0xc2).insertIdx (i + 1) 0xae) (i + 2)
      else if s.get ⟨i, h⟩ = 0x86 then cdFixLoop g (s.eraseIdx i) (i + 1)
      else cdFixLoop g s (i + 1) := by
  simp [cdFixLoop, h]

lemma cdFixSpec_nil : cdFixSpec [] = [] := by
  rw [cdFixSpec.eq_def]

lemma cdFixSpec_ae (rest : List Nat) :
    cdFixSpec (0xae :: rest) = 0xc2 :: 0xae :: cdFixSpec rest := by
  rw [cdFixSpec.eq_def]
  simp

lemma cdFixSpec_86_nil : cdFixSpec [0x86] = [] := by
  rw [cdFixSpec.eq_def]
  simp

lemma cdFixSpec_86_cons (c : Nat) (rest : List Nat) :
    cdFixSpec (0x86 :: c :: rest) = c :: cdFixSpec rest := by
  rw [cdFixSpec.eq_def]
  simp

lemma cdFixSpec_other (b : Nat) (rest : List Nat) (hb : ¬ b = 0xae)
    (hb2 : ¬ b = 0x86) : cdFixSpec (b :: rest) = b :: cdFixSpec rest := by
  rw [cdFixSpec.eq_def]
  simp [hb, hb2]

/-- The C repair loop, started anywhere with enough fuel, acts on the
unprocessed suffix exactly as the structural restatement `cdFixSpec`
(each iteration consumes at least one suffix byte, so `rest.length` fuel
suffices). -/
lemma cdFixLoop_eq_spec (rest : List Nat) :
    ∀ gas, rest.length ≤ gas → ∀ acc : List Nat,
      cdFixLoop gas (acc ++ rest) acc.length = acc ++ cdFixSpec rest := by
  induction rest using cdFixSpec.induct with
  | case1 =>
    intro gas _ acc
    rw [cdFixSpec_nil, List.append_nil]
    exact cdFixLoop_out gas acc acc.length le_rfl
  | case2 rest2 ih =>
    intro gas hg acc
    cases gas with
    | zero => simp at hg
    | succ g =>
      have hlt : acc.length < (acc ++ 0xae :: rest2).length := by
        simp
      rw [cdFixLoop_succ g _ _ hlt, get_append_len acc 0xae rest2 hlt]
      rw [if_pos rfl, set_append_len]
      have hins : (acc ++ 0xc2 :: rest2).insertIdx (acc.length + 1) 0xae =
          (acc ++ [0xc2, 0xae]) ++ rest2 := by
        have h2 := insertIdx_append_len (acc ++ [0xc2]) 0xae rest2
        simpa using h2
      rw [hins]
      have h3 := ih g (by simpa using Nat.le_of_succ_le_succ hg) (acc ++ [0xc2, 0xae])
      simp only [List.length_append] at h3
      have h4 : acc.length + 2 = acc.length + [0xc2, 0xae].length := by simp
      rw [h4]
      simpa [cdFixSpec_ae] using h3
  | case3 =>
    intro gas hg acc
    cases gas with
    | zero => simp at hg
    | succ g =>
      have hlt : acc.length < (acc ++ [0x86]).length := by simp
      rw [show (acc ++ [0x86] : List Nat) = acc ++ 0x86 :: [] from rfl] at hlt ⊢
      rw [cdFixLoop_succ g _ _ hlt, get_append_len acc 0x86 [] hlt]
      rw [if_neg (by decide), if_pos rfl, eraseIdx_append_len]
      rw [cdFixSpec_86_nil, List.append_nil]
      exact cdFixLoop_out g acc (acc.length + 1) (Nat.le_succ_of_le le_rfl)
  | case4 c rest2 _ ih =>
    intro gas hg acc
    cases gas with
    | zero => simp at hg
    | succ g =>
      have hlt : acc.length < (acc ++ 0x86 :: c :: rest2).length := by simp
      rw [cdFixLoop_succ g _ _ hlt, get_append_len acc 0x86 (c :: rest2) hlt]
      rw [if_neg (by decide), if_pos rfl, eraseIdx_append_len]
      have h3 := ih g (by simp at hg ⊢; omega) (acc ++ [c])
      simp only [List.length_append] at h3
      have h4 : acc.length + 1 = acc.length + [c].length := by simp
      rw [show (acc ++ c :: rest2 : List Nat) = (acc ++ [c]) ++ rest2 by simp, h4]
      simpa [cdFixSpec_86_cons] using h3
  | case5 b rest2 hb hb2 ih =>
    intro gas hg acc
    cases gas with
    | zero => simp at hg
    | succ g =>
      have hlt : acc.length < (acc ++ b :: rest2).length := by simp
      rw [cdFixLoop_succ g _ _ hlt, get_append_len acc b rest2 hlt]
      rw [if_neg hb, if_neg hb2]
      have h3 := ih g (by simpa using Nat.le_of_succ_le_succ hg) (acc ++ [b])
      simp only [List.length_append] at h3
      have h4 : acc.length + 1 = acc.length + [b].length := by simp
      rw [show (acc ++ b :: rest2 : List Nat) = (acc ++ [b]) ++ rest2 by simp, h4]
      simpa [cdFixSpec_other b rest2 hb hb2] using h3

/-- The repair pass of `cd_icc_fix_utf8_string` equals `cdFixSpec`. -/
lemma cdFixLoop_zero_eq_spec (s : List Nat) : cdFixLoop s.length s 0 = cdFixSpec s := by
  simpa using cdFixLoop_eq_spec s s.length le_rfl []

lemma cd_icc_get_mluc_data_size (env : Env) (st : CdIccState) (prof : CmsProfile)
    (locale : Option CStr) (mluc : CdIccMluc) (sigs : List Nat) :
    (cd_icc_get_mluc_data env st prof locale mluc sigs).state.size = st.size := by
  simp only [cd_icc_get_mluc_data]
  repeat' split
  all_goals try rfl
  all_goals cases mluc <;> rfl

lemma cd_icc_get_mluc_data_checksum (env : Env) (st : CdIccState) (prof : CmsProfile)
    (locale : Option CStr) (mluc : CdIccMluc) (sigs : List Nat) :
    (cd_icc_get_mluc_data env st prof locale mluc sigs).state.checksum = st.checksum := by
  simp only [cd_icc_get_mluc_data]
  repeat' split
  all_goals try rfl
  all_goals cases mluc <;> rfl

lemma cd_icc_load_header_size (st : CdIccState) (prof : CmsProfile) :
    (cd_icc_load_header st prof).size = st.size := by
  unfold cd_icc_load_header
  split <;> split <;> rfl

lemma cd_icc_load_metadata_step_size (env : Env) (st : CdIccState)
    (prof : CmsProfile) (flags : CdIccLoadFlags) :
    (cd_icc_load_metadata_step env st prof flags).size = st.size := by
  unfold cd_icc_load_metadata_step
  split
  · split <;> rfl
  · rfl

lemma cd_icc_load_translations_step_size (env : Env) (st : CdIccState)
    (prof : CmsProfile) :
    (cd_icc_load_translations_step env st prof).size = st.size := by
  simp only [cd_icc_load_translations_step, cd_icc_get_description,
    cd_icc_get_copyright, cd_icc_get_manufacturer, cd_icc_get_model]
  rw [cd_icc_get_mluc_data_size, cd_icc_get_mluc_data_size,
    cd_icc_get_mluc_data_size, cd_icc_get_mluc_data_size]

lemma cd_icc_load_named_step_size (env : Env) (st : CdIccState)
    (prof : CmsProfile) (flags : CdIccLoadFlags) :
    (cd_icc_load_named_step env st prof flags).size = st.size := by
  unfold cd_icc_load_named_step
  split <;> rfl

lemma cd_icc_load_size (env : Env) (st : CdIccState) (prof : CmsProfile)
    (flags : CdIccLoadFlags) :
    (cd_icc_load env st prof flags).size = st.size := by
  unfold cd_icc_load
  rw [cd_icc_load_named_step_size, cd_icc_load_translations_step_size]
  show (cd_icc_load_metadata_step env (cd_icc_load_header st prof) prof flags).size
    = st.size
  rw [cd_icc_load_metadata_step_size, cd_icc_load_header_size]

lemma cd_icc_load_translations_step_checksum (env : Env) (st : CdIccState)
    (prof : CmsProfile) :
    (cd_icc_load_translations_step env st prof).checksum = st.checksum := by
  simp only [cd_icc_load_translations_step, cd_icc_get_description,
    cd_icc_get_copyright, cd_icc_get_manufacturer, cd_icc_get_model]
  rw [cd_icc_get_mluc_data_checksum, cd_icc_get_mluc_data_checksum,
    cd_icc_get_mluc_data_checksum, cd_icc_get_mluc_data_checksum]

lemma cd_icc_load_named_step_checksum (env : Env) (st : CdIccState)
    (prof : CmsProfile) (flags : CdIccLoadFlags) :
    (cd_icc_load_named_step env st prof flags).checksum = st.checksum := by
  unfold cd_icc_load_named_step
  split <;> rfl

/-- `cd_icc_load` always leaves the checksum at exactly the precooked
value from the embedded profile identifier (the later pipeline stages do
not touch it). -/
lemma cd_icc_load_checksum (env : Env) (st : CdIccState) (prof : CmsProfile)
    (flags : CdIccLoadFlags) :
    (cd_icc_load env st prof flags).checksum = cd_icc_get_precooked_md5 prof := by
  unfold cd_icc_load
  rw [cd_icc_load_named_step_checksum, cd_icc_load_translations_step_checksum]

/-- C5 (counterexample): on input `{0x86, 0x86}` the claim predicts that
both bytes are deleted — the repaired string would be empty, valid UTF-8,
and the repair would succeed — but the loop erases only the first `0x86`
(the loop increment skips the byte that slid into the erased slot),
leaving `{0x86}`, which is invalid UTF-8, so the repair fails and the
caller drops the entry. -/
theorem C5_counterexample :
    cd_icc_fix_utf8_string [0x86, 0x86] = none ∧
    claimedRepair [0x86, 0x86] = [] ∧
    utf8Validate (claimedRepair [0x86, 0x86]) = true ∧
    cdFixLoop ([0x86, 0x86] : List Nat).length [0x86, 0x86] 0 = [0x86] := by
  decide

/-- C5 (amended): the Text Repair Utility rewrites each byte equal to
`0xae` as the two bytes `{0xc2, 0xae}`; it deletes a byte equal to `0x86`
but then skips the byte that slides into its position, so in a run of
consecutive `0x86` bytes only every other byte is removed; it then
re-validates the result as UTF-8 and returns failure — so the caller
drops the entry — exactly when the repaired bytes are still invalid
UTF-8 (`cdFixSpec` is exactly that transformation). -/
theorem C5_fix_utf8_amended (s : List Nat) :
    cd_icc_fix_utf8_string s =
      (if utf8Validate (cdFixSpec s) then some (cdFixSpec s) else none) := by
  unfold cd_icc_fix_utf8_string
  rw [cdFixLoop_zero_eq_spec]

/-- C10: a zero-length buffer trips the `g_return_val_if_fail` guard of
the byte-buffer load: FALSE is returned with no error set and the state
untouched, and the codec is never asked to open; consequently the
FailedToParse guarantee for undersized inputs holds (for a not-yet-loaded
object) only from length 1 upward, as the second conjunct states. -/
theorem C10_zero_length (env : Env) (st : CdIccState) (flags : CdIccLoadFlags) :
    ((cd_icc_load_data env st [] flags).ret = false ∧
     (cd_icc_load_data env st [] flags).err = none ∧
     (cd_icc_load_data env st [] flags).state = st ∧
     (cd_icc_load_data env st [] flags).openAttempted = false) ∧
    (∀ data : List Nat, st.lcms_profile = none → 1 ≤ data.length →
      data.length < 132 →
      (cd_icc_load_data env st data flags).err = some .FailedToParse) := by
  constructor
  · exact ⟨rfl, rfl, rfl, rfl⟩
  · intro data h0 h1 h2
    unfold cd_icc_load_data
    rw [if_neg (by omega), if_neg (by simp [h0]), if_pos h2]

/-- C10 (witness): concrete instances of both conjuncts. -/
theorem C10_zero_length_witness :
    (cd_icc_load_data envBase cd_icc_init [] flagsNone).err = none ∧
    (cd_icc_load_data envBase cd_icc_init [1] flagsNone).err =
      some .FailedToParse :=
  ⟨(C10_zero_length envBase cd_icc_init flagsNone).1.2.1,
   (C10_zero_length envBase cd_icc_init flagsNone).2 [1] rfl (by decide) (by decide)⟩

/-- C6 (counterexample): the empty buffer is shorter than 132 bytes, yet
the load does not fail with FailedToParse — the precondition guard
returns FALSE with no error value set at all. -/
theorem C6_counterexample :
    (cd_icc_load_data envBase cd_icc_init [] flagsNone).ret = false ∧
    (cd_icc_load_data envBase cd_icc_init [] flagsNone).err ≠
      some CdError.FailedToParse := by
  decide

/-- C6 (amended): for a not-yet-loaded profile object, every NON-EMPTY
byte buffer shorter than 132 bytes makes the byte-buffer load fail with
FailedToParse regardless of the buffer's content, with the state
untouched and without the codec ever being asked to open the input. -/
theorem C6_short_buffer_amended (env : Env) (st : CdIccState)
    (flags : CdIccLoadFlags) (data : List Nat) (h0 : st.lcms_profile = none)
    (h1 : 1 ≤ data.length) (h2 : data.length < 132) :
    cd_icc_load_data env st data flags =
      ⟨false, some .FailedToParse, st, false⟩ := by
  unfold cd_icc_load_data
  rw [if_neg (by omega), if_neg (by simp [h0]), if_pos h2]

set_option maxRecDepth 4000 in
/-- C6 (witness): a 131-byte buffer of zeros. -/
theorem C6_short_buffer_amended_witness :
    cd_icc_load_data envBase cd_icc_init (List.replicate 131 0) flagsNone =
      ⟨false, some .FailedToParse, cd_icc_init, false⟩ :=
  C6_short_buffer_amended envBase cd_icc_init flagsNone (List.replicate 131 0)
    rfl (by decide) (by decide)

/-- Any failing byte-buffer load leaves the model state untouched. -/
lemma cd_icc_load_data_fail_state (env : Env) (st : CdIccState)
    (flags : CdIccLoadFlags) (data : List Nat)
    (hret : (cd_icc_load_data env st data flags).ret = false) :
    (cd_icc_load_data env st data flags).state = st := by
  unfold cd_icc_load_data at hret ⊢
  by_cases h1 : data.length = 0
  · rw [if_pos h1]
  · rw [if_neg h1] at hret ⊢
    by_cases h2 : st.lcms_profile.isSome = true
    · rw [if_pos h2]
    · rw [if_neg h2] at hret ⊢
      by_cases h3 : data.length < 0x84
      · rw [if_pos h3]
      · rw [if_neg h3] at hret ⊢
        cases hop : env.openFromMem data with
        | none =>
          simp only [hop]
          have hnone : st.lcms_profile = none := by
            cases hh : st.lcms_profile with
            | none => rfl
            | some p => rw [hh] at h2; simp at h2
          cases st
          simp_all
        | some prof => rw [hop] at hret; simp at hret

/-- C7: a structural load failure — the source cannot be read, or the
codec cannot open/parse the input — aborts the whole operation and leaves
the model in its pre-load state: every failing byte-buffer load leaves
the state untouched, a file load whose content read fails reports
FailedToOpen with the state untouched, and a file load whose parse fails
leaves the state untouched as well (instantiated at the empty pre-load
state this is exactly "no size, no filename, no can-delete flag, no
cached fields"). -/
theorem C7_structural_failure (env : Env) (st : CdIccState)
    (flags : CdIccLoadFlags) :
    (∀ data : List Nat, (cd_icc_load_data env st data flags).ret = false →
      (cd_icc_load_data env st data flags).state = st) ∧
    (env.fileLoadContents = none →
      (cd_icc_load_file env st flags).err = some .FailedToOpen ∧
      (cd_icc_load_file env st flags).state = st) ∧
    (∀ data : List Nat, env.fileLoadContents = some data →
      (cd_icc_load_data env st data flags).ret = false →
      (cd_icc_load_file env st flags).state = st) := by
  refine ⟨fun data hret => cd_icc_load_data_fail_state env st flags data hret, ?_, ?_⟩
  · intro hnone
    unfold cd_icc_load_file
    rw [hnone]
    exact ⟨rfl, rfl⟩
  · intro data hsome hret
    unfold cd_icc_load_file
    rw [hsome]
    have hcond : ¬ (cd_icc_load_data env st data flags).ret = true := by
      rw [hret]; simp
    simp only [if_pos hcond]
    exact cd_icc_load_data_fail_state env st flags data hret

/-- C7 (witness): a zero-length buffer and an unreadable file, from the
fresh object. -/
theorem C7_structural_failure_witness :
    (cd_icc_load_data envBase cd_icc_init [] flagsNone).state = cd_icc_init ∧
    (cd_icc_load_file envBase cd_icc_init flagsNone).state = cd_icc_init :=
  ⟨(C7_structural_failure envBase cd_icc_init flagsNone).1 [] rfl,
   ((C7_structural_failure envBase cd_icc_init flagsNone).2.1 rfl).2⟩

/-- C9: the descriptor load path never touches `size` — for any state the
fd load leaves `size` as it was, so after a successful fd load from a
fresh object the size getter reports 0, its "unknown" value; the
byte-buffer path (through which the file path also goes) sets `size` to
the actual input length on success. -/
theorem C9_fd_size (env : Env) (flags : CdIccLoadFlags) :
    (∀ st : CdIccState, (cd_icc_load_fd env st flags).state.size = st.size) ∧
    ((cd_icc_load_fd env cd_icc_init flags).ret = true →
      cd_icc_get_size (cd_icc_load_fd env cd_icc_init flags).state = 0) ∧
    (∀ (st : CdIccState) (data : List Nat),
      (cd_icc_load_data env st data flags).ret = true →
      cd_icc_get_size (cd_icc_load_data env st data flags).state = data.length) := by
  have h1 : ∀ st : CdIccState, (cd_icc_load_fd env st flags).state.size = st.size := by
    intro st
    unfold cd_icc_load_fd
    by_cases hfd : env.fdopenOk = true
    · rw [if_neg (show ¬ ¬ env.fdopenOk = true by simp [hfd])]
      cases hop : env.openFromStream with
      | none => rfl
      | some prof =>
        dsimp only []
        rw [cd_icc_load_size]
    · rw [if_pos hfd]
  refine ⟨h1, ?_, ?_⟩
  · intro _
    rw [cd_icc_get_size, h1]
    rfl
  · intro st data hret
    unfold cd_icc_load_data at hret ⊢
    by_cases hl1 : data.length = 0
    · rw [if_pos hl1] at hret; simp at hret
    · rw [if_neg hl1] at hret ⊢
      by_cases hl2 : st.lcms_profile.isSome = true
      · rw [if_pos hl2] at hret; simp at hret
      · rw [if_neg hl2] at hret ⊢
        by_cases hl3 : data.length < 0x84
        · rw [if_pos hl3] at hret; simp at hret
        · rw [if_neg hl3] at hret ⊢
          cases hop : env.openFromMem data with
          | none => rw [hop] at hret; simp at hret
          | some prof =>
            rw [cd_icc_get_size]
            dsimp only []
            split
            · rw [cd_icc_load_size]
            · rw [cd_icc_load_size]

/-- An external behaviour whose stream open succeeds. -/
def envFd : Env := { envBase with fdopenOk := true, openFromStream := some profBase }

/-- An external behaviour whose buffer open succeeds. -/
def envOpen : Env := { envBase with openFromMem := fun _ => some profBase }

/-- A minimal well-sized input buffer. -/
def data132 : List Nat := List.replicate 132 0

set_option maxRecDepth 8000 in
/-- C9 (witness): a successful fd load reports size 0; a successful
132-byte buffer load reports size 132. -/
theorem C9_fd_size_witness :
    cd_icc_get_size (cd_icc_load_fd envFd cd_icc_init flagsNone).state = 0 ∧
    cd_icc_get_size (cd_icc_load_data envOpen cd_icc_init data132 flagsNone).state =
      data132.length :=
  ⟨(C9_fd_size envFd flagsNone).2.1 (by decide),
   (C9_fd_size envOpen flagsNone).2.2 cd_icc_init data132 (by decide)⟩

/-- A successful byte-buffer load resolves the checksum exactly as the
source does: the precooked value when the embedded identifier has a
non-zero byte, else the MD5 fallback when requested, else nothing. -/
lemma cd_icc_load_data_checksum (env : Env) (st : CdIccState)
    (flags : CdIccLoadFlags) (data : List Nat) (prof : CmsProfile)
    (h0 : st.lcms_profile = none) (h1 : 132 ≤ data.length)
    (hop : env.openFromMem data = some prof) :
    (cd_icc_load_data env st data flags).state.checksum =
      (match cd_icc_get_precooked_md5 prof with
       | some c => some c
       | none => if flags.fallbackMd5 = true then some (env.md5 data) else none) := by
  unfold cd_icc_load_data
  rw [if_neg (by omega), if_neg (by simp [h0]), if_neg (by omega), hop]
  dsimp only []
  split
  · next hcond =>
    rw [cd_icc_load_checksum] at hcond
    rw [hcond.1, if_pos hcond.2]
  · next hcond =>
    rw [cd_icc_load_checksum]
    rw [cd_icc_load_checksum] at hcond
    cases hpre : cd_icc_get_precooked_md5 prof with
    | some c => rfl
    | none =>
      rw [hpre] at hcond
      have hf : flags.fallbackMd5 = false := by
        cases hfb : flags.fallbackMd5 with
        | false => rfl
        | true => exact absurd ⟨rfl, hfb⟩ hcond
      rw [hf]
      simp

lemma hexEncode_length (bs : List Nat) : (hexEncode bs).length = 2 * bs.length := by
  induction bs with
  | nil => rfl
  | cons b t ih =>
    show (byteToHex b ++ hexEncode t).length = 2 * (t.length + 1)
    rw [List.length_append, ih]
    simp [byteToHex]
    omega

lemma hexChar_range (n : Nat) (h : n < 16) :
    ('0' ≤ hexChar n ∧ hexChar n ≤ '9') ∨ ('a' ≤ hexChar n ∧ hexChar n ≤ 'f') := by
  interval_cases n <;> decide

lemma hexEncode_chars (bs : List Nat) (hb : ∀ b ∈ bs, b < 256) :
    ∀ c ∈ hexEncode bs, ('0' ≤ c ∧ c ≤ '9') ∨ ('a' ≤ c ∧ c ≤ 'f') := by
  induction bs with
  | nil => intro c hc; simp [hexEncode] at hc
  | cons b t ih =>
    intro c hc
    have hsplit : hexEncode (b :: t) = byteToHex b ++ hexEncode t := rfl
    rw [hsplit] at hc
    rcases List.mem_append.mp hc with hcl | hcr
    · have hblt : b < 256 := hb b (by simp)
      have hdiv : b / 16 < 16 := Nat.div_lt_of_lt_mul (by omega)
      have hmod : b % 16 < 16 := Nat.mod_lt _ (by norm_num)
      rcases List.mem_pair.mp (by simpa [byteToHex] using hcl) with rfl | rfl
      · exact hexChar_range _ hdiv
      · exact hexChar_range _ hmod
    · exact ih (fun x hx => hb x (by simp [hx])) c hcr

/-- C4: at load over the byte-buffer path, if any of the embedded
profile-identifier bytes is non-zero the checksum becomes the hex
encoding of those bytes (32 characters, lowercase hex digits, for the
16-byte identifier); if all bytes are zero and the MD5 fallback was
requested the checksum becomes the content hash of the exact input
bytes; otherwise the checksum stays unset. -/
theorem C4_checksum_resolution (env : Env) (st : CdIccState)
    (flags : CdIccLoadFlags) (data : List Nat) (prof : CmsProfile)
    (h0 : st.lcms_profile = none) (h1 : 132 ≤ data.length)
    (hop : env.openFromMem data = some prof) :
    ((∃ b ∈ prof.profileId, b ≠ 0) →
      (cd_icc_load_data env st data flags).state.checksum =
        some (hexEncode prof.profileId)) ∧
    ((∀ b ∈ prof.profileId, b = 0) → flags.fallbackMd5 = true →
      (cd_icc_load_data env st data flags).state.checksum =
        some (env.md5 data)) ∧
    ((∀ b ∈ prof.profileId, b = 0) → flags.fallbackMd5 = false →
      (cd_icc_load_data env st data flags).state.checksum = none) ∧
    (prof.profileId.length = 16 → (hexEncode prof.profileId).length = 32) ∧
    ((∀ b ∈ prof.profileId, b < 256) →
      ∀ c ∈ hexEncode prof.profileId,
        ('0' ≤ c ∧ c ≤ '9') ∨ ('a' ≤ c ∧ c ≤ 'f')) := by
  refine ⟨?_, ?_, ?_, ?_, ?_⟩
  · intro hx
    have hpre : cd_icc_get_precooked_md5 prof = some (hexEncode prof.profileId) := by
      unfold cd_icc_get_precooked_md5
      rw [if_pos (by simpa [List.any_eq_true] using hx)]
    rw [cd_icc_load_data_checksum env st flags data prof h0 h1 hop, hpre]
  · intro hz hfb
    have hpre : cd_icc_get_precooked_md5 prof = none := by
      unfold cd_icc_get_precooked_md5
      rw [if_neg]
      simp only [List.any_eq_true]
      push_neg
      intro b hbmem
      simpa using hz b hbmem
    rw [cd_icc_load_data_checksum env st flags data prof h0 h1 hop, hpre, hfb]
    simp
  · intro hz hfb
    have hpre : cd_icc_get_precooked_md5 prof = none := by
      unfold cd_icc_get_precooked_md5
      rw [if_neg]
      simp only [List.any_eq_true]
      push_neg
      intro b hbmem
      simpa using hz b hbmem
    rw [cd_icc_load_data_checksum env st flags data prof h0 h1 hop, hpre, hfb]
    simp
  · intro hlen
    rw [hexEncode_length, hlen]
  · exact hexEncode_chars prof.profileId

/-- A profile whose embedded identifier has one non-zero byte. -/
def profId : CmsProfile := { profBase with profileId := 10 :: List.replicate 15 0 }

/-- An external behaviour opening any buffer as `profId`. -/
def envOpenId : Env := { envBase with openFromMem := fun _ => some profId }

/-- Load requesting only the MD5 fallback. -/
def flagsMd5 : CdIccLoadFlags := ⟨false, false, false, true⟩

set_option maxRecDepth 8000 in
/-- C4 (witness): all three checksum resolutions on concrete loads. -/
theorem C4_checksum_resolution_witness :
    (cd_icc_load_data envOpenId cd_icc_init data132 flagsNone).state.checksum =
      some (hexEncode profId.profileId) ∧
    (cd_icc_load_data envOpen cd_icc_init data132 flagsMd5).state.checksum =
      some (envOpen.md5 data132) ∧
    (cd_icc_load_data envOpen cd_icc_init data132 flagsNone).state.checksum = none :=
  ⟨(C4_checksum_resolution envOpenId cd_icc_init flagsNone data132 profId rfl
      (by decide) rfl).1 (by decide),
   (C4_checksum_resolution envOpen cd_icc_init flagsMd5 data132 profBase rfl
      (by decide) rfl).2.1 (by decide) rfl,
   (C4_checksum_resolution envOpen cd_icc_init flagsNone data132 profBase rfl
      (by decide) rfl).2.2.1 (by decide) rfl⟩

lemma writeTagProfile_version (p : CmsProfile) (sig : Nat) (c : Option TagContent) :
    (writeTagProfile p sig c).version = p.version := rfl

lemma tagsWrittenGet_set (p : CmsProfile) (sig : Nat) (c : Option TagContent) :
    tagsWrittenGet (writeTagProfile p sig c) sig = some c := by
  unfold tagsWrittenGet writeTagProfile
  simp

/-- C3: in `cd_util_write_tag_localized`, (a) when zero (key, value)
pairs survive the parse filter the tag is deleted by writing null (the
single codec call is the null write, the call succeeds, and when the
codec accepts it the tag ends up deleted); (b) when more than one pair
survives and the model's profile version is below 4.0, the very first
codec call raises the native profile version to exactly 4.0 — before any
tag write — and the handle's version is 4.0 afterwards; the filter
silently drops (c) any key containing `@` and (d) any key whose first
`_`-segment is not exactly 2 characters, and (e) a two-segment key whose
second segment is not exactly 2 characters. -/
theorem C3_write_localized (env : Env) (st : CdIccState) (prof : CmsProfile)
    (sig : Nat) (hash : List (CStr × List Nat)) :
    ((hash.filterMap fun kv => cd_util_mlu_object_parse kv.1 kv.2) = [] →
      (cd_util_write_tag_localized env st prof sig hash).ret = true ∧
      (cd_util_write_tag_localized env st prof sig hash).trace =
        [.writeTag sig none] ∧
      (env.writeTagOk sig = true →
        tagsWrittenGet (cd_util_write_tag_localized env st prof sig hash).profile
          sig = some none)) ∧
    ((hash.filterMap fun kv => cd_util_mlu_object_parse kv.1 kv.2).length > 1 →
      st.version < 4 →
      (cd_util_write_tag_localized env st prof sig hash).trace.head? =
        some (.setVersion 4) ∧
      (cd_util_write_tag_localized env st prof sig hash).profile.version = 4) ∧
    (∀ (k : CStr) (v : List Nat), k.any (· = '@') = true →
      cd_util_mlu_object_parse k v = none) ∧
    (∀ (k : CStr) (v : List Nat), k ≠ [] →
      ((splitOnChar '_' (k.takeWhile fun c => c != '.')).headD []).length ≠ 2 →
      cd_util_mlu_object_parse k v = none) ∧
    (∀ (k : CStr) (v : List Nat),
      (splitOnChar '_' (k.takeWhile fun c => c != '.')).length = 2 →
      ((splitOnChar '_' (k.takeWhile fun c => c != '.')).getD 1 []).length ≠ 2 →
      cd_util_mlu_object_parse k v = none) := by
  refine ⟨?_, ?_, ?_, ?_, ?_⟩
  · intro h0
    unfold cd_util_write_tag_localized
    rw [h0]
    refine ⟨rfl, rfl, ?_⟩
    intro hw
    simp only [if_pos hw]
    show tagsWrittenGet (if (0 : Nat) = 0 then writeTagProfile prof sig none else prof)
      sig = some none
    rw [if_pos rfl, tagsWrittenGet_set]
  · intro hgt hver
    unfold cd_util_write_tag_localized
    rw [if_neg (by omega)]
    have hcond :
        (hash.filterMap fun kv => cd_util_mlu_object_parse kv.1 kv.2).length > 1 ∧
          st.version < 4 := ⟨hgt, hver⟩
    simp only [if_pos hcond]
    split
    · exact ⟨rfl, rfl⟩
    · split
      · exact ⟨rfl, rfl⟩
      · split
        · refine ⟨rfl, ?_⟩
          dsimp only []
          split
          · rw [writeTagProfile_version, writeTagProfile_version]
          · rw [writeTagProfile_version]
        · exact ⟨rfl, by rw [writeTagProfile_version]⟩
  · intro k v hk
    unfold cd_util_mlu_object_parse
    have hne : k ≠ [] := by
      intro hnil
      rw [hnil] at hk
      simp at hk
    rw [if_neg hne, if_pos hk]
  · intro k v hne h2
    unfold cd_util_mlu_object_parse
    rw [if_neg hne]
    by_cases ha : k.any (· = '@') = true
    · rw [if_pos ha]
    · rw [if_neg ha]
      dsimp only []
      rw [if_pos h2]
  · intro k v hlen h2
    have hne : k ≠ [] := by
      intro hnil
      rw [hnil] at hlen
      simp [splitOnChar] at hlen
    unfold cd_util_mlu_object_parse
    rw [if_neg hne]
    by_cases ha : k.any (· = '@') = true
    · rw [if_pos ha]
    · rw [if_neg ha]
      dsimp only []
      by_cases hh : ((splitOnChar '_' (k.takeWhile fun c => c != '.')).headD []).length ≠ 2
      · rw [if_pos hh]
      · rw [if_neg hh, if_neg (by omega)]
        cases hw : utf8_to_wchar_t v with
        | none => rfl
        | some wtext =>
          dsimp only []
          rw [if_neg (by omega), if_pos h2]

/-- A not-yet-loaded state whose model version is 2.0. -/
def stV2 : CdIccState := { cd_icc_init with version := 2 }

/-- C3 (witness): an empty field deletes the tag; two surviving
translations on a v2 model promote the native version to exactly 4.0
first; `sr@latin`, a 1-character language and a bad country are
dropped. -/
theorem C3_write_localized_witness :
    ((cd_util_write_tag_localized envBase cd_icc_init profBase cmsSigCopyrightTag
        []).trace = [.writeTag cmsSigCopyrightTag none]) ∧
    ((cd_util_write_tag_localized envBase stV2 profBase cmsSigCopyrightTag
        [([], [0x61]), (['f', 'r'], [0x62])]).trace.head? =
      some (.setVersion 4)) ∧
    ((cd_util_write_tag_localized envBase stV2 profBase cmsSigCopyrightTag
        [([], [0x61]), (['f', 'r'], [0x62])]).profile.version = 4) ∧
    cd_util_mlu_object_parse ['s', 'r', '@', 'l'] [0x61] = none ∧
    cd_util_mlu_object_parse ['e'] [0x61] = none ∧
    cd_util_mlu_object_parse ['e', 'n', '_', 'G', 'B', 'X'] [0x61] = none :=
  ⟨((C3_write_localized envBase cd_icc_init profBase cmsSigCopyrightTag []).1
      (by decide)).2.1,
   ((C3_write_localized envBase stV2 profBase cmsSigCopyrightTag
      [([], [0x61]), (['f', 'r'], [0x62])]).2.1 (by decide) (by decide)).1,
   ((C3_write_localized envBase stV2 profBase cmsSigCopyrightTag
      [([], [0x61]), (['f', 'r'], [0x62])]).2.1 (by decide) (by decide)).2,
   (C3_write_localized envBase cd_icc_init profBase 0 []).2.2.1
      ['s', 'r', '@', 'l'] [0x61] (by decide),
   (C3_write_localized envBase cd_icc_init profBase 0 []).2.2.2.1
      ['e'] [0x61] (by decide) (by decide),
   (C3_write_localized envBase cd_icc_init profBase 0 []).2.2.2.2
      ['e', 'n', '_', 'G', 'B', 'X'] [0x61] (by decide) (by decide)⟩

/-- An opened profile carrying a readable description tag (handle 7). -/
def profMlu : CmsProfile :=
  { profBase with mluTags := [(cmsSigProfileDescriptionTag, 7)] }

/-- C2 (counterexample): with the description tag present (handle 7) and
the codec reporting no text for the exact pair ("fr", ""), the
localized-text get returns NULL with the error left unset — it does NOT
fail with NoData as the claim requires. -/
theorem C2_counterexample :
    cd_icc_find_mlu profMlu
      [cmsSigDscmTag, cmsSigProfileDescriptionTag, 0] = some 7 ∧
    envBase.mluGetWide 7 ['f', 'r'] [] = none ∧
    (cd_icc_get_description envBase cd_icc_init profMlu (some ['f', 'r'])).value =
      none ∧
    (cd_icc_get_description envBase cd_icc_init profMlu (some ['f', 'r'])).err =
      none ∧
    (cd_icc_get_description envBase cd_icc_init profMlu (some ['f', 'r'])).err ≠
      some CdError.NoData := by
  decide

/-- C2 (amended): for every field and every locale whose key decomposes
successfully, on a cache miss with a candidate tag present but the codec
yielding no text for the exact (language, country) pair, the get returns
an absent value with NO error set and the state unchanged — no NoData
failure, no caching, and no fallback to the default entry within the
call. -/
theorem C2_no_text_amended (env : Env) (st : CdIccState) (prof : CmsProfile)
    (locale : Option CStr) (mluc : CdIccMluc) (sigs : List Nat)
    (lang ctry : CStr) (hdl : Nat)
    (hmiss : alistGet (getMlucTable st mluc) (cd_icc_get_locale_key locale) = none)
    (hdec : cd_icc_decompose_key (cd_icc_get_locale_key locale) = some (lang, ctry))
    (htag : cd_icc_find_mlu prof sigs = some hdl)
    (hwide : env.mluGetWide hdl lang ctry = none) :
    cd_icc_get_mluc_data env st prof locale mluc sigs = ⟨none, none, st⟩ := by
  simp only [cd_icc_get_mluc_data]
  rw [hmiss, hdec, htag]
  dsimp only []
  rw [hwide]

/-- C2 (witness): the amended behaviour at the concrete counterexample
input. -/
theorem C2_no_text_amended_witness :
    cd_icc_get_mluc_data envBase cd_icc_init profMlu (some ['f', 'r'])
      .description [cmsSigDscmTag, cmsSigProfileDescriptionTag, 0] =
      ⟨none, none, cd_icc_init⟩ :=
  C2_no_text_amended envBase cd_icc_init profMlu (some ['f', 'r']) .description
    [cmsSigDscmTag, cmsSigProfileDescriptionTag, 0] ['f', 'r'] [] 7
    (by decide) (by decide) (by decide) rfl

/-- The metadata loop ignores per-entry failures: the dict it builds
holds exactly the pairs whose key and value both transcode. -/
lemma buildMetaDict_go (md : List (List Nat × List Nat))
    (acc : List (List Nat × List Nat)) :
    md.foldl (fun dict kv => (_cmsDictAddEntryAscii dict kv.1 kv.2).1) acc =
      acc ++ md.filterMap (fun kv =>
        match utf8_to_wchar_t kv.1, utf8_to_wchar_t kv.2 with
        | some kw, some vw => some (kw, vw)
        | _, _ => none) := by
  induction md generalizing acc with
  | nil => simp
  | cons kv t ih =>
    rw [List.foldl_cons, List.filterMap_cons, ih]
    unfold _cmsDictAddEntryAscii
    cases h1 : utf8_to_wchar_t kv.1 with
    | none => simp
    | some kw =>
      cases h2 : utf8_to_wchar_t kv.2 with
      | none => simp
      | some vw => simp

lemma buildMetaDict_eq (md : List (List Nat × List Nat)) :
    buildMetaDict md =
      md.filterMap (fun kv =>
        match utf8_to_wchar_t kv.1, utf8_to_wchar_t kv.2 with
        | some kw, some vw => some (kw, vw)
        | _, _ => none) := by
  unfold buildMetaDict
  rw [buildMetaDict_go]
  simp

lemma find_filter_ne (l : List (Nat × Option TagContent)) (sig s : Nat)
    (h : s ≠ sig) :
    ((l.filter fun q => q.1 ≠ sig).find? fun q => q.1 = s) =
      (l.find? fun q => q.1 = s) := by
  induction l with
  | nil => rfl
  | cons q t ih =>
    by_cases hq : q.1 = sig
    · have hqs : ¬ q.1 = s := fun hc => h (hc.symm.trans hq)
      rw [List.filter_cons_of_neg (by simpa using hq),
        List.find?_cons_of_neg _ (by simpa using hqs)]
      exact ih
    · rw [List.filter_cons_of_pos (by simpa using hq)]
      by_cases hqs : q.1 = s
      · rw [List.find?_cons_of_pos _ (by simpa using hqs),
          List.find?_cons_of_pos _ (by simpa using hqs)]
      · rw [List.find?_cons_of_neg _ (by simpa using hqs),
          List.find?_cons_of_neg _ (by simpa using hqs)]
        exact ih

lemma tagsWrittenGet_vupdate (p : CmsProfile) (v : ℚ) (s : Nat) :
    tagsWrittenGet { p with version := v } s = tagsWrittenGet p s := rfl

lemma tagsWrittenGet_idupdate (p : CmsProfile) (x : List Nat) (s : Nat) :
    tagsWrittenGet { p with profileId := x } s = tagsWrittenGet p s := rfl

lemma tagsWrittenGet_set_ne (p : CmsProfile) (sig : Nat) (c : Option TagContent)
    (s : Nat) (h : s ≠ sig) :
    tagsWrittenGet (writeTagProfile p sig c) s = tagsWrittenGet p s := by
  have hne : ¬ ((sig, c).1 = s) := fun hc => h hc.symm
  unfold tagsWrittenGet writeTagProfile
  rw [List.find?_cons_of_neg _ (by simpa using hne), find_filter_ne _ _ _ h]

/-- The localized tag writer touches only its own tag and the `dscm`
alias: any other tag's write-log entry is unchanged. -/
lemma tagsWrittenGet_ite_vupdate (p : CmsProfile) (c : Prop) [Decidable c]
    (v : ℚ) (s : Nat) :
    tagsWrittenGet (if c then { p with version := v } else p) s =
      tagsWrittenGet p s := by
  split <;> rfl

lemma cd_util_write_tag_localized_preserves (env : Env) (st : CdIccState)
    (prof : CmsProfile) (sig : Nat) (hash : List (CStr × List Nat)) (s : Nat)
    (h1 : s ≠ sig) (h2 : s ≠ cmsSigDscmTag) :
    tagsWrittenGet (cd_util_write_tag_localized env st prof sig hash).profile s =
      tagsWrittenGet prof s := by
  unfold cd_util_write_tag_localized
  by_cases c0 : (hash.filterMap fun kv => cd_util_mlu_object_parse kv.1 kv.2).length = 0
  · rw [if_pos c0]
    dsimp only []
    by_cases cw : env.writeTagOk sig = true
    · rw [if_pos cw, tagsWrittenGet_set_ne _ _ _ _ h1]
    · rw [if_neg cw]
  · rw [if_neg c0]
    dsimp only []
    cases c1 : cd_util_mlu_fill env
        (hash.filterMap fun kv => cd_util_mlu_object_parse kv.1 kv.2) with
    | false =>
      rw [if_pos (by simp)]
      try dsimp only []
      rw [tagsWrittenGet_ite_vupdate]
    | true =>
      rw [if_neg (by simp)]
      cases c2 : env.writeTagOk sig with
      | false =>
        rw [if_pos (by simp)]
        try dsimp only []
        rw [tagsWrittenGet_ite_vupdate]
      | true =>
        rw [if_neg (by simp)]
        try dsimp only []
        by_cases c3 : sig = cmsSigProfileDescriptionTag
        · rw [if_pos c3]
          dsimp only []
          by_cases c4 : env.writeTagOk cmsSigDscmTag = true
          · rw [if_pos c4, tagsWrittenGet_set_ne _ _ _ _ h2,
              tagsWrittenGet_set_ne _ _ _ _ h1, tagsWrittenGet_ite_vupdate]
          · rw [if_neg c4, tagsWrittenGet_set_ne _ _ _ _ h1,
              tagsWrittenGet_ite_vupdate]
        · rw [if_neg c3]
          dsimp only []
          rw [tagsWrittenGet_set_ne _ _ _ _ h1, tagsWrittenGet_ite_vupdate]

/-- The tail of the save pipeline only writes the four localized tags
(and the `dscm` alias): the metadata tag's write-log entry survives it. -/
lemma cd_icc_save_translations_preserves (env : Env) (st : CdIccState)
    (prof : CmsProfile) (tr : List CodecCall) (s : Nat)
    (h1 : s ≠ cmsSigProfileDescriptionTag) (h2 : s ≠ cmsSigCopyrightTag)
    (h3 : s ≠ cmsSigDeviceMfgDescTag) (h4 : s ≠ cmsSigDeviceModelDescTag)
    (h5 : s ≠ cmsSigDscmTag) :
    tagsWrittenGet (cd_icc_save_translations env st prof tr).profile s =
      tagsWrittenGet prof s := by
  have p1 : ∀ p : CmsProfile,
      tagsWrittenGet (cd_util_write_tag_localized env st p
        cmsSigProfileDescriptionTag st.mlucDescription).profile s =
        tagsWrittenGet p s :=
    fun p => cd_util_write_tag_localized_preserves env st p _ _ s h1 h5
  have p2 : ∀ p : CmsProfile,
      tagsWrittenGet (cd_util_write_tag_localized env st p
        cmsSigCopyrightTag st.mlucCopyright).profile s = tagsWrittenGet p s :=
    fun p => cd_util_write_tag_localized_preserves env st p _ _ s h2 h5
  have p3 : ∀ p : CmsProfile,
      tagsWrittenGet (cd_util_write_tag_localized env st p
        cmsSigDeviceMfgDescTag st.mlucManufacturer).profile s = tagsWrittenGet p s :=
    fun p => cd_util_write_tag_localized_preserves env st p _ _ s h3 h5
  have p4 : ∀ p : CmsProfile,
      tagsWrittenGet (cd_util_write_tag_localized env st p
        cmsSigDeviceModelDescTag st.mlucModel).profile s = tagsWrittenGet p s :=
    fun p => cd_util_write_tag_localized_preserves env st p _ _ s h4 h5
  unfold cd_icc_save_translations
  dsimp only []
  by_cases b1 : (cd_util_write_tag_localized env st prof
      cmsSigProfileDescriptionTag st.mlucDescription).ret = true
  case neg =>
    rw [if_pos (by simp [b1])]
    exact p1 prof
  case pos =>
    rw [if_neg (by simp [b1])]
    by_cases b2 : (cd_util_write_tag_localized env st
        (cd_util_write_tag_localized env st prof cmsSigProfileDescriptionTag
          st.mlucDescription).profile cmsSigCopyrightTag st.mlucCopyright).ret = true
    case neg =>
      rw [if_pos (by simp [b2])]
      rw [p2, p1]
    case pos =>
      rw [if_neg (by simp [b2])]
      by_cases b3 : (cd_util_write_tag_localized env st
          (cd_util_write_tag_localized env st
            (cd_util_write_tag_localized env st prof cmsSigProfileDescriptionTag
              st.mlucDescription).profile cmsSigCopyrightTag
            st.mlucCopyright).profile cmsSigDeviceMfgDescTag
          st.mlucManufacturer).ret = true
      case neg =>
        rw [if_pos (by simp [b3])]
        rw [p3, p2, p1]
      case pos =>
        rw [if_neg (by simp [b3])]
        by_cases b4 : (cd_util_write_tag_localized env st
            (cd_util_write_tag_localized env st
              (cd_util_write_tag_localized env st
                (cd_util_write_tag_localized env st prof
                  cmsSigProfileDescriptionTag st.mlucDescription).profile
                cmsSigCopyrightTag st.mlucCopyright).profile
              cmsSigDeviceMfgDescTag st.mlucManufacturer).profile
            cmsSigDeviceModelDescTag st.mlucModel).ret = true
        case neg =>
          rw [if_pos (by simp [b4])]
          rw [p4, p3, p2, p1]
        case pos =>
          rw [if_neg (by simp [b4])]
          try dsimp only []
          by_cases cm : env.md5ComputeOk = true
          case neg =>
            rw [if_pos (by simp [cm])]
            rw [p4, p3, p2, p1]
          case pos =>
            rw [if_neg (by simp [cm])]
            try dsimp only []
            by_cases cl : env.saveLenOk = true
            case neg =>
              rw [if_pos (by simp [cl])]
              rw [tagsWrittenGet_idupdate, p4, p3, p2, p1]
            case pos =>
              rw [if_neg (by simp [cl])]
              by_cases cs2 : env.saveMemOk = true
              case neg =>
                rw [if_pos (by simp [cs2])]
                rw [tagsWrittenGet_idupdate, p4, p3, p2, p1]
              case pos =>
                rw [if_neg (by simp [cs2])]
                by_cases cr : env.replaceOk = true
                case neg =>
                  rw [if_pos (by simp [cr])]
                  rw [tagsWrittenGet_idupdate, p4, p3, p2, p1]
                case pos =>
                  rw [if_neg (by simp [cr])]
                  rw [tagsWrittenGet_idupdate, p4, p3, p2, p1]


/-- A fresh model with two metadata entries, the second having a key that
is not valid UTF-8 (`0xff` can never appear in UTF-8 text). -/
def stMeta : CdIccState :=
  { cd_icc_init with metadata := [([0x61], [0x62]), ([0xff], [0x63])] }

/-- C1 (counterexample): with a metadata map whose second entry has a
non-transcodable key, the save SUCCEEDS (no FailedToSave) and the
metadata tag written to the codec contains only the first entry — the
failing entry is silently omitted, because `cd_icc_save_file` ignores
the return value of `_cmsDictAddEntryAscii`. -/
theorem C1_counterexample :
    utf8_to_wchar_t [0xff] = none ∧
    (cd_icc_save_file envBase stMeta profBase).ret = true ∧
    (cd_icc_save_file envBase stMeta profBase).err = none ∧
    tagsWrittenGet (cd_icc_save_file envBase stMeta profBase).profile
      cmsSigMetaTag = some (some (.dict [([0x61], [0x62])])) := by
  decide

/-- C1 (amended): for every save with a non-empty metadata map, an entry
whose key or value fails transcoding is silently omitted from the
written metadata tag (the dict written holds exactly the entries whose
key and value both transcode); the metadata step fails with FailedToSave
only when the codec rejects writing the assembled tag, in which case the
whole save aborts. -/
theorem C1_metadata_amended (env : Env) (st : CdIccState) (prof : CmsProfile)
    (hmd : st.metadata ≠ []) :
    (env.writeTagOk cmsSigMetaTag = false →
      (cd_icc_save_file env st prof).ret = false ∧
      (cd_icc_save_file env st prof).err = some .FailedToSave) ∧
    (env.writeTagOk cmsSigMetaTag = true →
      tagsWrittenGet (cd_icc_save_file env st prof).profile cmsSigMetaTag =
        some (some (.dict (buildMetaDict st.metadata)))) ∧
    buildMetaDict st.metadata = st.metadata.filterMap (fun kv =>
      match utf8_to_wchar_t kv.1, utf8_to_wchar_t kv.2 with
      | some kw, some vw => some (kw, vw)
      | _, _ => none) := by
  have hlen : st.metadata.length ≠ 0 := by
    intro h
    exact hmd (List.length_eq_zero.mp h)
  refine ⟨?_, ?_, buildMetaDict_eq st.metadata⟩
  · intro hw
    unfold cd_icc_save_file cd_icc_save_core
    dsimp only []
    rw [if_pos hlen, if_pos (by simp [hw])]
    exact ⟨rfl, rfl⟩
  · intro hw
    unfold cd_icc_save_file cd_icc_save_core
    dsimp only []
    rw [if_pos hlen, if_neg (by simp [hw])]
    rw [cd_icc_save_translations_preserves env st _ _ cmsSigMetaTag
      (by decide) (by decide) (by decide) (by decide) (by decide)]
    rw [tagsWrittenGet_set]

/-- An external behaviour rejecting exactly the metadata tag write. -/
def envNoMeta : Env :=
  { envBase with writeTagOk := fun sig => sig != cmsSigMetaTag }

/-- C1 (witness): the amended behaviour at concrete inputs — a rejected
metadata write aborts the save with FailedToSave; an accepted one writes
the transcodable entries. -/
theorem C1_metadata_amended_witness :
    ((cd_icc_save_file envNoMeta stMeta profBase).ret = false ∧
     (cd_icc_save_file envNoMeta stMeta profBase).err = some .FailedToSave) ∧
    tagsWrittenGet (cd_icc_save_file envBase stMeta profBase).profile
      cmsSigMetaTag = some (some (.dict (buildMetaDict stMeta.metadata))) :=
  ⟨(C1_metadata_amended envNoMeta stMeta profBase (by decide)).1 (by decide),
   (C1_metadata_amended envBase stMeta profBase (by decide)).2.1 rfl⟩

/-- C8: saving writes nothing back into the model — the checksum (and the
size, filename and can-delete fields) after a save are exactly those
before it; the codec-side outcome of a save (return value, error, handle
state including the recomputed embedded identifier, call log) does not
depend on the cached checksum at all; and the post-load mutators (set
version/kind/colorspace, metadata add/remove, localized-text setters)
never touch the checksum either, so no later operation changes it. -/
theorem C8_save_frame (env : Env) (st : CdIccState) (prof : CmsProfile)
    (c : Option (List Char)) (v : ℚ) (k : CdProfileKind) (cs : CdColorspace)
    (key value : List Nat) (locale : Option CStr) (text : List Nat) :
    ((cd_icc_save_file env st prof).state.checksum = st.checksum ∧
     (cd_icc_save_file env st prof).state.size = st.size ∧
     (cd_icc_save_file env st prof).state.filename = st.filename ∧
     (cd_icc_save_file env st prof).state.can_delete = st.can_delete) ∧
    ((cd_icc_save_file env { st with checksum := c } prof).ret =
        (cd_icc_save_file env st prof).ret ∧
     (cd_icc_save_file env { st with checksum := c } prof).err =
        (cd_icc_save_file env st prof).err ∧
     (cd_icc_save_file env { st with checksum := c } prof).profile =
        (cd_icc_save_file env st prof).profile ∧
     (cd_icc_save_file env { st with checksum := c } prof).trace =
        (cd_icc_save_file env st prof).trace) ∧
    ((cd_icc_set_version st v).checksum = st.checksum ∧
     (cd_icc_set_kind st k).checksum = st.checksum ∧
     (cd_icc_set_colorspace st cs).checksum = st.checksum ∧
     (cd_icc_add_metadata st key value).checksum = st.checksum ∧
     (cd_icc_remove_metadata st key).checksum = st.checksum ∧
     (cd_icc_set_description st locale text).checksum = st.checksum ∧
     (cd_icc_set_copyright st locale text).checksum = st.checksum ∧
     (cd_icc_set_manufacturer st locale text).checksum = st.checksum ∧
     (cd_icc_set_model st locale text).checksum = st.checksum) :=
  ⟨⟨rfl, rfl, rfl, rfl⟩,
   ⟨rfl, rfl, rfl, rfl⟩,
   rfl, rfl, rfl, rfl, rfl, rfl, rfl, rfl, rfl⟩
